import Mathlib

/-!
Verification of the local-compute engine of `verifiable-thinking-mcp`.

The repository ships (under `src/examples/math_example.py`) the literal
example tables `INJECTION_EXAMPLES`, `DIRECT_SOLVE_EXAMPLES` and
`DOMAIN_EXAMPLES`, which are recorded outputs of the TypeScript compute
engine (`src/compute`).  The engine itself is not part of the Python
sources, so it is modelled here from the design document: pattern
matchers, solver registry, left-to-right non-overlapping scan, domain
filter, LRU cache and the `[=value]` injector.  The example tables are
embedded verbatim and every claim is checked against them and against
the modelled engine.
-/

namespace VT

/-- Fuel-driven Euclidean algorithm (kernel-reducible). -/
def gcdGo : Nat → Nat → Nat → Nat
  | 0, _, n => n
  | fuel + 1, m, n => if m = 0 then n else gcdGo fuel (n % m) m

/-- Greatest common divisor. -/
def natGcd (m n : Nat) : Nat := gcdGo (m + 1) m n

/-- Least common multiple. -/
def natLcm (m n : Nat) : Nat :=
  if natGcd m n = 0 then 0 else m * n / natGcd m n

/-- A rational number as a numerator/denominator pair.  Values built by
`mkQ` are in lowest terms with a positive denominator. -/
structure Q where
  num : Int
  den : Nat
deriving DecidableEq

/-- Normalizing constructor (denominator `0` maps to `0`). -/
def mkQ (n : Int) (d : Nat) : Q :=
  if d = 0 then ⟨0, 1⟩
  else
    let g := natGcd n.natAbs d
    ⟨n / g, d / g⟩

/-- Embed a natural number. -/
def qOfNat (n : Nat) : Q := ⟨n, 1⟩

def qAdd (a b : Q) : Q := mkQ (a.num * b.den + b.num * a.den) (a.den * b.den)

def qSub (a b : Q) : Q := mkQ (a.num * b.den - b.num * a.den) (a.den * b.den)

def qMul (a b : Q) : Q := mkQ (a.num * b.num) (a.den * b.den)

/-- Division; a zero divisor yields `0` (callers guard it as a
`DomainError` before dividing). -/
def qDiv (a b : Q) : Q :=
  if b.num < 0 then mkQ (-(a.num * b.den)) (a.den * b.num.natAbs)
  else mkQ (a.num * b.den) (a.den * b.num.natAbs)

def qPow (a : Q) : Nat → Q
  | 0 => ⟨1, 1⟩
  | n + 1 => qMul a (qPow a n)

/-- The integer square root, when exact. -/
def perfectSqrt (n : Nat) : Option Nat :=
  (List.range (n + 1)).find? (fun r => r * r = n)

/-- A computed value: a rational number or a boolean (primality). -/
inductive Value where
  | num : Q → Value
  | boolean : Bool → Value
deriving DecidableEq

/-- Digits of a natural number, most significant first (fuel-driven). -/
def natToChars : Nat → Nat → List Char → List Char
  | 0, _, acc => acc
  | fuel + 1, n, acc =>
    let d := Char.ofNat (48 + n % 10)
    if n < 10 then d :: acc else natToChars fuel (n / 10) (d :: acc)

/-- Decimal string of a natural number. -/
def natStr (n : Nat) : String := ⟨natToChars (n + 1) n []⟩

/-- Decimal string of an integer. -/
def intStr (i : Int) : String :=
  if i < 0 then "-" ++ natStr i.natAbs else natStr i.natAbs

/-- Modelled from the spec: numeric values render without unnecessary
decimal places when integral; booleans render as `true`/`false`.
(The TypeScript renderer in `src/compute` is not in the sources.) -/
def renderValue : Value → String
  | .num q => if q.den = 1 then intStr q.num else intStr q.num ++ "/" ++ natStr q.den
  | .boolean b => if b then "true" else "false"

/-- Lower-case an ASCII letter, identity elsewhere. -/
def lowerCh (c : Char) : Char :=
  if 'A' ≤ c && c ≤ 'Z' then Char.ofNat (c.toNat + 32) else c

/-- ASCII letter or digit. -/
def isAlnumCh (c : Char) : Bool := c.isAlpha || c.isDigit

/-- Length of the leading run of characters satisfying `p`. -/
def takeWhileCount (p : Char → Bool) : List Char → Nat
  | [] => 0
  | c :: cs => if p c then takeWhileCount p cs + 1 else 0

/-- Length of the leading run of spaces. -/
def wsCount (s : List Char) : Nat := takeWhileCount (fun c => c = ' ') s

/-- Value of a digit string (most significant first). -/
def digitsVal : List Char → Nat → Nat
  | [], acc => acc
  | c :: cs, acc => digitsVal cs (acc * 10 + (c.toNat - 48))

/-- Does `s` start with the keyword `kw`, compared case-insensitively? -/
def kwTest : List Char → List Char → Bool
  | [], _ => true
  | _ :: _, [] => false
  | k :: ks, c :: cs => (lowerCh c = lowerCh k) && kwTest ks cs

/-- Parser state: remaining input and number of characters consumed. -/
structure PS where
  rest : List Char
  used : Nat
deriving DecidableEq

/-- Consume a case-insensitive keyword. -/
def psKw (kw : String) (p : PS) : Option PS :=
  if kwTest kw.data p.rest then
    some ⟨p.rest.drop kw.data.length, p.used + kw.data.length⟩
  else none

/-- Consume at least one space. -/
def psWs1 (p : PS) : Option PS :=
  let n := wsCount p.rest
  if n = 0 then none else some ⟨p.rest.drop n, p.used + n⟩

/-- Consume any number of spaces. -/
def psWsAny (p : PS) : PS :=
  let n := wsCount p.rest
  ⟨p.rest.drop n, p.used + n⟩

/-- Consume a nonempty digit run as a natural-number literal. -/
def psNat (p : PS) : Option (Nat × PS) :=
  let n := takeWhileCount Char.isDigit p.rest
  if n = 0 then none
  else some (digitsVal (p.rest.take n) 0, ⟨p.rest.drop n, p.used + n⟩)

/-- Consume one expected character. -/
def psCh (c : Char) (p : PS) : Option PS :=
  match p.rest with
  | x :: xs => if x = c then some ⟨xs, p.used + 1⟩ else none
  | [] => none

/-- A matcher result: characters consumed, category name, and the
solver's value (`none` is a `DomainError`: the match is dropped). -/
abbrev MatchOut := Nat × String × Option Value

/-- Modelled from the spec: the `arithmetic` solver for `a OP b`,
`OP ∈ \x7b+, -, *, /\x7d`; division by zero is a `DomainError`. -/
def arithVal (op : Char) (a b : Nat) : Option Value :=
  if op = '+' then some (.num (qAdd (qOfNat a) (qOfNat b)))
  else if op = '-' then some (.num (qSub (qOfNat a) (qOfNat b)))
  else if op = '*' then some (.num (qMul (qOfNat a) (qOfNat b)))
  else if b = 0 then none
  else some (.num (qDiv (qOfNat a) (qOfNat b)))

/-- Modelled from the spec: matcher for binary `a OP b` with numeric
literal operands (engine source absent from the repository). -/
def mArith (s : List Char) : Option MatchOut := do
  let (a, p1) ← psNat ⟨s, 0⟩
  let p2 := psWsAny p1
  match p2.rest with
  | op :: rest2 =>
    if op = '+' || op = '-' || op = '*' || op = '/' then do
      let p3 := psWsAny ⟨rest2, p2.used + 1⟩
      let (b, p4) ← psNat p3
      some (p4.used, "arithmetic", arithVal op a b)
    else none
  | [] => none

/-- Modelled from the spec: matcher and solver for `a^b`. -/
def mPower (s : List Char) : Option MatchOut := do
  let (a, p1) ← psNat ⟨s, 0⟩
  let p2 ← psCh '^' (psWsAny p1)
  let (b, p3) ← psNat (psWsAny p2)
  some (p3.used, "power", some (.num (qPow (qOfNat a) b)))

/-- Modelled from the spec: matcher and solver for `N!`. -/
def mFactorial (s : List Char) : Option MatchOut := do
  let (a, p1) ← psNat ⟨s, 0⟩
  let p2 ← psCh '!' p1
  some (p2.used, "factorial", some (.num (qOfNat (Nat.factorial a))))

/-- Modelled from the spec: matcher and solver for `sqrt(N)` with a
literal argument; a non-perfect-square argument is a `DomainError`
(the examples only exercise perfect squares). -/
def mSqrt (s : List Char) : Option MatchOut := do
  let p1 ← psKw "sqrt(" ⟨s, 0⟩
  let (a, p2) ← psNat (psWsAny p1)
  let p3 ← psCh ')' (psWsAny p2)
  some (p3.used, "square_root",
    (perfectSqrt a).map (fun r => .num (qOfNat r)))

/-- Modelled from the spec: matcher and solver for `gcd(A, B)`. -/
def mGcd (s : List Char) : Option MatchOut := do
  let p1 ← psKw "gcd(" ⟨s, 0⟩
  let (a, p2) ← psNat (psWsAny p1)
  let p3 ← psCh ',' (psWsAny p2)
  let (b, p4) ← psNat (psWsAny p3)
  let p5 ← psCh ')' (psWsAny p4)
  some (p5.used, "gcd", some (.num (qOfNat (natGcd a b))))

/-- Modelled from the spec: matcher and solver for `lcm(A, B)`. -/
def mLcm (s : List Char) : Option MatchOut := do
  let p1 ← psKw "lcm(" ⟨s, 0⟩
  let (a, p2) ← psNat (psWsAny p1)
  let p3 ← psCh ',' (psWsAny p2)
  let (b, p4) ← psNat (psWsAny p3)
  let p5 ← psCh ')' (psWsAny p4)
  some (p5.used, "lcm", some (.num (qOfNat (natLcm a b))))

/-- Modelled from the spec: matcher and solver for `P% of N`. -/
def mPercent (s : List Char) : Option MatchOut := do
  let (p, p1) ← psNat ⟨s, 0⟩
  let p2 ← psCh '%' p1
  let p3 ← psKw "of" (psWsAny p2)
  let p4 ← psWs1 p3
  let (n, p5) ← psNat p4
  some (p5.used, "percentage",
    some (.num (qDiv (qMul (qOfNat p) (qOfNat n)) (qOfNat 100))))

/-- Modelled from the spec: unary multiplier phrasing
("twice N" / "double N" / "triple N" with multiplier 2 / 2 / 3). -/
def mWordMul (kw : String) (cat : String) (k : Nat) (s : List Char) :
    Option MatchOut := do
  let p1 ← psKw kw ⟨s, 0⟩
  let p2 ← psWs1 p1
  let (n, p3) ← psNat p2
  some (p3.used, cat, some (.num (qMul (qOfNat k) (qOfNat n))))

def mTwice (s : List Char) : Option MatchOut := mWordMul "twice" "word_twice" 2 s

def mDouble (s : List Char) : Option MatchOut := mWordMul "double" "word_double" 2 s

def mTriple (s : List Char) : Option MatchOut := mWordMul "triple" "word_triple" 3 s

/-- Modelled from the spec: "half of N" → `N / 2`. -/
def mHalf (s : List Char) : Option MatchOut := do
  let p1 ← psKw "half" ⟨s, 0⟩
  let p2 ← psWs1 p1
  let p3 ← psKw "of" p2
  let p4 ← psWs1 p3
  let (n, p5) ← psNat p4
  some (p5.used, "word_half", some (.num (qDiv (qOfNat n) (qOfNat 2))))

/-- Modelled from the spec: the fraction-word vocabulary mapping
ordinal/fraction words to integer divisors. -/
def psFracWord (p : PS) : Option (Nat × PS) :=
  match psKw "third" p with
  | some p2 => some (3, p2)
  | none =>
    match psKw "quarter" p with
    | some p2 => some (4, p2)
    | none =>
      match psKw "fourth" p with
      | some p2 => some (4, p2)
      | none => (psKw "fifth" p).map (fun p2 => (5, p2))

/-- Modelled from the spec: "one third of N", "a quarter of N" →
`N / divisor`. -/
def mFraction (s : List Char) : Option MatchOut := do
  let p1 ←
    match psKw "one" ⟨s, 0⟩ with
    | some p2 => some p2
    | none => psKw "a" ⟨s, 0⟩
  let p2 ← psWs1 p1
  let (d, p3) ← psFracWord p2
  let p4 ← psWs1 p3
  let p5 ← psKw "of" p4
  let p6 ← psWs1 p5
  let (n, p7) ← psNat p6
  some (p7.used, "word_fraction", some (.num (qDiv (qOfNat n) (qOfNat d))))

/-- Modelled from the spec: "sum/difference/product of A and B". -/
def mWordBin (kw : String) (cat : String) (f : Nat → Nat → Q)
    (s : List Char) : Option MatchOut := do
  let p1 ← psKw kw ⟨s, 0⟩
  let p2 ← psWs1 p1
  let p3 ← psKw "of" p2
  let p4 ← psWs1 p3
  let (a, p5) ← psNat p4
  let p6 ← psWs1 p5
  let p7 ← psKw "and" p6
  let p8 ← psWs1 p7
  let (b, p9) ← psNat p8
  some (p9.used, cat, some (.num (f a b)))

def mSum (s : List Char) : Option MatchOut :=
  mWordBin "sum" "word_sum" (fun a b => qAdd (qOfNat a) (qOfNat b)) s

def mDiff (s : List Char) : Option MatchOut :=
  mWordBin "difference" "word_difference" (fun a b => qSub (qOfNat a) (qOfNat b)) s

def mProd (s : List Char) : Option MatchOut :=
  mWordBin "product" "word_product" (fun a b => qMul (qOfNat a) (qOfNat b)) s

/-- Trial-division primality check. -/
def isPrimeB (n : Nat) : Bool :=
  decide (2 ≤ n) &&
    (List.range n).all (fun d => decide (d < 2) || decide (n % d ≠ 0))

/-- Modelled from the spec: matcher and solver for the
"Is N prime?" phrasing (boolean result). -/
def mPrime (s : List Char) : Option MatchOut := do
  let p1 ← psKw "is" ⟨s, 0⟩
  let p2 ← psWs1 p1
  let (n, p3) ← psNat p2
  let p4 ← psWs1 p3
  let p5 ← psKw "prime" p4
  let p6 :=
    match psCh '?' p5 with
    | some p7 => p7
    | none => p5
  some (p6.used, "primality", some (.boolean (isPrimeB n)))

/-- Longest match wins; earlier categories win ties. -/
def pickBest : List MatchOut → Option MatchOut
  | [] => none
  | x :: xs =>
    match pickBest xs with
    | none => some x
    | some y => if x.1 < y.1 then some y else some x

/-- Modelled from the spec: try every category's matcher at the start
of `s` and keep the longest match (§4.1 precedence rule). -/
def matchAt (s : List Char) : Option MatchOut :=
  pickBest (List.filterMap (fun f => f s)
    [mArith, mPower, mFactorial, mSqrt, mGcd, mLcm, mPercent,
     mTwice, mDouble, mTriple, mHalf, mFraction, mSum, mDiff, mProd,
     mPrime])

/-- A located match: span start, span length, category tag. -/
structure MatchSpan where
  start : Nat
  len : Nat
  category : String
deriving DecidableEq

/-- Modelled from the spec: left-to-right scan; a match is only
attempted at a word boundary (start of text or after a
non-alphanumeric character); after a match the scan resumes past it,
so matches never overlap.  Fuel is the remaining text length. -/
def scanGo : Nat → List Char → Nat → Option Char → List MatchSpan
  | 0, _, _, _ => []
  | _ + 1, [], _, _ => []
  | fuel + 1, c :: cs, i, prev =>
    let ok :=
      match prev with
      | none => true
      | some pc => !(isAlnumCh pc)
    match (if ok then matchAt (c :: cs) else none) with
    | some r =>
      let l := max r.1 1
      ⟨i, l, r.2.1⟩ ::
        scanGo fuel (List.drop l (c :: cs)) (i + l) (some ((c :: cs).getD (l - 1) ' '))
    | none => scanGo fuel cs (i + 1) (some c)

/-- Modelled from the spec: the Classifier scan producing the ordered,
non-overlapping match list for a text. -/
def scanText (s : String) : List MatchSpan := scanGo s.data.length s.data 0 none

/-- The literal text of a match span within the original text. -/
def rawOf (t : List Char) (m : MatchSpan) : String :=
  ⟨(t.drop m.start).take m.len⟩

/-- Collapse runs of spaces to a single space
(second argument: previous kept character was a space). -/
def collapseGo : List Char → Bool → List Char
  | [], _ => []
  | c :: rest, prevSp =>
    if c = ' ' then
      (if prevSp then collapseGo rest true else ' ' :: collapseGo rest true)
    else c :: collapseGo rest false

/-- Modelled from the spec: cache key normalization —
whitespace-insensitive and case-insensitive (§4.5). -/
def normKey (s : String) : String := ⟨collapseGo (s.data.map lowerCh) false⟩

/-- Modelled from the spec: the Solver Registry applied to an
expression's (normalized) literal text: re-match the expression
standalone and take the solver's value. -/
def solveKey (k : String) : Option Value := (matchAt k.data).bind (fun r => r.2.2)

/-- A match paired with its resolution (`none` = dropped). -/
abbrev ResolvedM := MatchSpan × Option Value

/-- Modelled from the spec: resolve every match independently from its
literal source text (no result threading between matches). -/
def resolvePure (t : List Char) (ms : List MatchSpan) : List ResolvedM :=
  ms.map (fun m => (m, solveKey (normKey (rawOf t m))))

/-- The annotation inserted after a match: one space, then the
bracketed value (wire format observed in `INJECTION_EXAMPLES`). -/
def annStr (v : Value) : String := " [=" ++ renderValue v ++ "]"

/-- Modelled from the spec: the Injector — single left-to-right pass
over the original text, copying verbatim and appending the annotation
immediately after each resolved match's span (offsets are relative to
the original text); dropped matches insert nothing. -/
def injGo : List Char → Nat → List ResolvedM → List Char
  | s, _, [] => s
  | s, off, (m, v) :: rest =>
    let k := m.start + m.len - off
    s.take k ++
      (match v with
       | some w => (annStr w).data
       | none => []) ++
      injGo (s.drop k) (off + k) rest

/-- The ordered computation list: (value, method) per retained,
resolved match. -/
def computationsOf (rs : List ResolvedM) : List (Value × String) :=
  rs.filterMap (fun r => r.2.map (fun v => (v, r.1.category)))

/-- The augmentation result: rewritten text plus computations. -/
structure AugOut where
  augmented : String
  computations : List (Value × String)
deriving DecidableEq

/-- Modelled from the spec: the augmentation pipeline with a category
suppression set (Domain Filter output) applied before resolution. -/
def extractWith (supp : List String) (text : String) : AugOut :=
  let ms := (scanText text).filter (fun m => !(supp.contains m.category))
  let rs := resolvePure text.data ms
  ⟨⟨injGo text.data 0 rs⟩, computationsOf rs⟩

/-- Modelled from the spec: `extractAndCompute` — augmentation with no
context (general domain, nothing suppressed). -/
def extractAndCompute (text : String) : AugOut := extractWith [] text

/-- Lower-case a whole string. -/
def lowerStr (s : String) : String := ⟨s.data.map lowerCh⟩

/-- Is `pat` a (case-sensitive) leading run of `s`? -/
def listPre : List Char → List Char → Bool
  | [], _ => true
  | _ :: _, [] => false
  | p :: ps, c :: cs => (p = c) && listPre ps cs

/-- Does `pat` occur anywhere in the text? -/
def hasSub (pat : List Char) : List Char → Bool
  | [] => listPre pat []
  | c :: cs => listPre pat (c :: cs) || hasSub pat cs

/-- Substring test on strings. -/
def containsSub (s pat : String) : Bool := hasSub pat.data s.data

/-- Modelled from the spec: classify the optional context string into a
domain by keyword presence; no context means `general` (§4.4).  The
concrete keyword sets are not in the repository sources; they are
chosen to reproduce the three `DOMAIN_EXAMPLES` classifications. -/
def classifyDomain : Option String → String
  | none => "general"
  | some ctx =>
    let l := lowerStr ctx
    if containsSub l "financial" || containsSub l "invest" ||
        containsSub l "portfolio" || containsSub l "bond" then "financial"
    else if containsSub l "tutor" || containsSub l "student" ||
        containsSub l "teacher" || containsSub l "classroom" then "educational"
    else "general"

/-- Modelled from the spec: each domain's suppressed categories.  The
repository does not list the sets; per §4.4 a phrase-based category
whose trigger word has a non-mathematical reading in the domain is
suppressed, so `financial` suppresses "product of A and B" (a financial
product); `general` and `educational` suppress nothing. -/
def suppressedOf : String → List String
  | "financial" => ["word_product"]
  | _ => []

/-- Modelled from the spec: `contextAwareCompute` — classify the system
prompt, then augment with the domain's suppression set. -/
def contextAwareCompute (sys : Option String) (thought : String) : AugOut :=
  extractWith (suppressedOf (classifyDomain sys)) thought

/-- Direct-solve result (`solved: false` is modelled as `none`). -/
structure LocalResult where
  result : Value
  method : String
  confidence : Q
deriving DecidableEq

/-- Word separators for the framing test. -/
def sepCh (c : Char) : Bool :=
  c = ' ' || c = '?' || c = '.' || c = ',' || c = '!'

/-- Split into words at separators (second argument: current word,
reversed). -/
def wordsGo : List Char → List Char → List (List Char)
  | [], cur => if cur.isEmpty then [] else [cur.reverse]
  | c :: cs, cur =>
    if sepCh c then
      (if cur.isEmpty then wordsGo cs [] else cur.reverse :: wordsGo cs [])
    else wordsGo cs (c :: cur)

/-- Case-insensitive word equality against a keyword. -/
def eqCI (w : List Char) (kw : String) : Bool := decide (w.map lowerCh = kw.data)

/-- Modelled from the spec: the framing vocabulary — words that may
surround a direct-solve expression ("What is 15 * 4?"). -/
def framingWordB (w : List Char) : Bool := eqCI w "what" || eqCI w "is"

/-- Is the residual text only framing words and punctuation? -/
def framingOnly (s : List Char) : Bool := (wordsGo s []).all framingWordB

/-- Modelled from the spec: `tryLocalCompute` — solved only when
exactly one match is found, it resolves, and everything outside its
span is framing (§4.8); otherwise not solved (`none`). -/
def tryLocalCompute (q : String) : Option LocalResult :=
  match scanText q with
  | [m] =>
    match solveKey (normKey (rawOf q.data m)) with
    | some v =>
      if framingOnly (q.data.take m.start) &&
          framingOnly (q.data.drop (m.start + m.len)) then
        some ⟨v, m.category, qOfNat 1⟩
      else none
    | none => none
  | _ => none

/-! ## Cache (LRU, keyed by normalized expression text) -/

/-- The process-wide result cache: association list, most recent first. -/
abbrev Cache := List (String × Value)

/-- First value stored under a key. -/
def lookupC : Cache → String → Option Value
  | [], _ => none
  | (k, v) :: rest, key => if k = key then some v else lookupC rest key

/-- Remove every entry stored under a key. -/
def eraseC : Cache → String → Cache
  | [], _ => []
  | (k, v) :: rest, key =>
    if k = key then eraseC rest key else (k, v) :: eraseC rest key

/-- Modelled from the spec: LRU insertion — the entry moves to the
front and the oldest entries beyond capacity are evicted (§4.5). -/
def insertLRU (cap : Nat) (c : Cache) (k : String) (v : Value) : Cache :=
  ((k, v) :: eraseC c k).take cap

/-- Modelled from the spec: cache consultation — a hit refreshes the
entry's recency; a miss invokes the solver and stores a successful
result (a `DomainError` is never cached). -/
def getCached (cap : Nat) (c : Cache) (k : String) : Option Value × Cache :=
  match lookupC c k with
  | some v => (some v, insertLRU cap c k v)
  | none =>
    match solveKey k with
    | some v => (some v, insertLRU cap c k v)
    | none => (none, c)

/-- Cache well-formedness: every stored entry is exactly what a fresh
solve of its key produces. -/
def WFCache (c : Cache) : Prop := ∀ p ∈ c, solveKey p.1 = some p.2

/-- Modelled from the spec: resolve the match list through the cache,
threading the cache state left to right. -/
def resolveGo (cap : Nat) : Cache → List Char → List MatchSpan → List ResolvedM × Cache
  | c, _, [] => ([], c)
  | c, t, m :: ms =>
    let r := getCached cap c (normKey (rawOf t m))
    let rest := resolveGo cap r.2 t ms
    ((m, r.1) :: rest.1, rest.2)

/-- Modelled from the spec: the augmentation entry point backed by the
shared cache. -/
def extractCachedWith (supp : List String) (cap : Nat) (c : Cache)
    (text : String) : AugOut × Cache :=
  let ms := (scanText text).filter (fun m => !(supp.contains m.category))
  let rc := resolveGo cap c text.data ms
  (⟨⟨injGo text.data 0 rc.1⟩, computationsOf rc.1⟩, rc.2)

/-- Modelled from the spec: the context-aware augmentation entry point
backed by the shared cache. -/
def contextAwareCached (sys : Option String) (cap : Nat) (c : Cache)
    (thought : String) : AugOut × Cache :=
  extractCachedWith (suppressedOf (classifyDomain sys)) cap c thought

/-- Modelled from the spec: the direct-solve entry point backed by the
shared cache. -/
def tryLocalCached (cap : Nat) (c : Cache) (q : String) :
    Option LocalResult × Cache :=
  match scanText q with
  | [m] =>
    let r := getCached cap c (normKey (rawOf q.data m))
    match r.1 with
    | some v =>
      (if framingOnly (q.data.take m.start) &&
          framingOnly (q.data.drop (m.start + m.len)) then
        some ⟨v, m.category, qOfNat 1⟩
      else none, r.2)
    | none => (none, r.2)
  | _ => (none, c)

/-! ## String utilities for the claims about the recorded outputs -/

/-- Count the non-overlapping occurrences of a pattern
(fuel is the text length). -/
def countOccGo (pat : List Char) : Nat → List Char → Nat
  | 0, _ => 0
  | _ + 1, [] => 0
  | fuel + 1, c :: cs =>
    if listPre pat (c :: cs) then
      1 + countOccGo pat fuel (List.drop pat.length (c :: cs))
    else countOccGo pat fuel cs

/-- Number of occurrences of `pat` in `s`. -/
def countOcc (s pat : String) : Nat := countOccGo pat.data s.data.length s.data

/-- Drop characters through the first `]`. -/
def dropPastRB : List Char → List Char
  | [] => []
  | c :: cs => if c = ']' then cs else dropPastRB cs

/-- Delete every maximal `[=...]` run, keeping everything else
(fuel is the text length). -/
def stripAnnGo : Nat → List Char → List Char
  | 0, s => s
  | _ + 1, [] => []
  | fuel + 1, c :: cs =>
    if listPre "[=".data (c :: cs) then
      stripAnnGo fuel (dropPastRB (List.drop 2 (c :: cs)))
    else c :: stripAnnGo fuel cs

/-- Delete every `[=...]` annotation (and nothing else) from a string. -/
def stripAnn (s : String) : String := ⟨stripAnnGo s.data.length s.data⟩

/-- Delete every `[=...]` annotation together with the single space
preceding it (fuel is the text length). -/
def stripAnnSpGo : Nat → List Char → List Char
  | 0, s => s
  | _ + 1, [] => []
  | fuel + 1, c :: cs =>
    if listPre " [=".data (c :: cs) then
      stripAnnSpGo fuel (dropPastRB (List.drop 3 (c :: cs)))
    else c :: stripAnnSpGo fuel cs

/-- Delete every space-prefixed `[=...]` annotation from a string. -/
def stripAnnSp (s : String) : String := ⟨stripAnnSpGo s.data.length s.data⟩

/-- Insert `sep ++ "[=" ++ value ++ "]"` at the given ascending
original-text offsets. -/
def injAtGo : List Char → Nat → List (Nat × String) → String → List Char
  | s, _, [], _ => s
  | s, off, (p, v) :: rest, sep =>
    s.take (p - off) ++ (sep ++ "[=" ++ v ++ "]").data ++
      injAtGo (s.drop (p - off)) p rest sep

/-- Insert a `[=value]` annotation, preceded by `sep`, at each of the
given ascending original-text offsets. -/
def injectAt (s : String) (ins : List (Nat × String)) (sep : String) : String :=
  ⟨injAtGo s.data 0 ins sep⟩

/-- The annotation sites the engine produces for a text: for each
retained, resolved match, the offset just past its literal span and the
rendered value. -/
def annotSites (text : String) : List (Nat × String) :=
  (resolvePure text.data (scanText text)).filterMap
    (fun r => r.2.map (fun v => (r.1.start + r.1.len, renderValue v)))

/-! ## The example tables of `src/examples/math_example.py`, verbatim -/

/-- One row of `INJECTION_EXAMPLES` (the optional `note` strings of the
Python dicts are not repeated here; they carry no data). -/
structure InjEx where
  category : String
  input : String
  output : String
  computations : Nat
deriving DecidableEq

/-- `INJECTION_EXAMPLES` from `src/examples/math_example.py`. -/
def INJECTION_EXAMPLES : List InjEx := [
  ⟨"Arithmetic",
    "Let me calculate 17 + 28 to find the total.",
    "Let me calculate 17 + 28 [=45] to find the total.", 1⟩,
  ⟨"Arithmetic",
    "First, 15 * 4 = 60. Then 60 / 3 gives us the answer.",
    "First, 15 * 4 [=60] = 60. Then 60 / 3 [=20] gives us the answer.", 2⟩,
  ⟨"Word Problems",
    "She has twice 7 apples in her basket.",
    "She has twice 7 [=14] apples in her basket.", 1⟩,
  ⟨"Word Problems",
    "Take half of 100 dollars for the deposit.",
    "Take half of 100 [=50] dollars for the deposit.", 1⟩,
  ⟨"Word Problems",
    "The sum of 10 and 25 gives us the total count.",
    "The sum of 10 and 25 [=35] gives us the total count.", 1⟩,
  ⟨"Word Problems",
    "Find the difference of 50 and 30 for the remaining amount.",
    "Find the difference of 50 and 30 [=20] for the remaining amount.", 1⟩,
  ⟨"Word Problems",
    "The product of 6 and 7 is the area.",
    "The product of 6 and 7 [=42] is the area.", 1⟩,
  ⟨"Word Problems",
    "We need double 25 items for the event.",
    "We need double 25 [=50] items for the event.", 1⟩,
  ⟨"Word Problems",
    "Take one third of 90 for each person.",
    "Take one third of 90 [=30] for each person.", 1⟩,
  ⟨"Word Problems",
    "A quarter of 80 students passed.",
    "A quarter of 80 [=20] students passed.", 1⟩,
  ⟨"Square Roots",
    "The hypotenuse is sqrt(9 + 16) = sqrt(25).",
    "The hypotenuse is sqrt(9 + 16 [=25]) = sqrt(25) [=5].", 2⟩,
  ⟨"Factorial",
    "We need 5! permutations for this problem.",
    "We need 5! [=120] permutations for this problem.", 1⟩,
  ⟨"Percentage",
    "What is 25% of 80? That would be the discount.",
    "What is 25% of 80 [=20]? That would be the discount.", 1⟩,
  ⟨"Not Injected (complex structure)",
    "If Alice has twice as many apples as Bob, and Bob has 7 apples.",
    "If Alice has twice as many apples as Bob, and Bob has 7 apples.", 0⟩]

/-- One row of `DIRECT_SOLVE_EXAMPLES` (the floating-point `time_ms`
column is measurement metadata and is not embedded). -/
structure DirectEx where
  query : String
  result : Value
  method : String
deriving DecidableEq

/-- `DIRECT_SOLVE_EXAMPLES` from `src/examples/math_example.py`. -/
def DIRECT_SOLVE_EXAMPLES : List DirectEx := [
  ⟨"17 + 28", .num ⟨45, 1⟩, "arithmetic"⟩,
  ⟨"What is 15 * 4?", .num ⟨60, 1⟩, "arithmetic"⟩,
  ⟨"2^10", .num ⟨1024, 1⟩, "power"⟩,
  ⟨"twice 7", .num ⟨14, 1⟩, "word_twice"⟩,
  ⟨"double 25", .num ⟨50, 1⟩, "word_double"⟩,
  ⟨"triple 10", .num ⟨30, 1⟩, "word_triple"⟩,
  ⟨"half of 100", .num ⟨50, 1⟩, "word_half"⟩,
  ⟨"one third of 90", .num ⟨30, 1⟩, "word_fraction"⟩,
  ⟨"a quarter of 80", .num ⟨20, 1⟩, "word_fraction"⟩,
  ⟨"sum of 10 and 25", .num ⟨35, 1⟩, "word_sum"⟩,
  ⟨"difference of 50 and 30", .num ⟨20, 1⟩, "word_difference"⟩,
  ⟨"product of 6 and 7", .num ⟨42, 1⟩, "word_product"⟩,
  ⟨"sqrt(144)", .num ⟨12, 1⟩, "square_root"⟩,
  ⟨"5!", .num ⟨120, 1⟩, "factorial"⟩,
  ⟨"gcd(48, 18)", .num ⟨6, 1⟩, "gcd"⟩,
  ⟨"lcm(4, 6)", .num ⟨12, 1⟩, "lcm"⟩,
  ⟨"Is 17 prime?", .boolean true, "primality"⟩,
  ⟨"25% of 80", .num ⟨20, 1⟩, "percentage"⟩]

/-- One row of `DOMAIN_EXAMPLES` (`output` is present on one row only;
the `note` strings are not repeated). -/
structure DomainEx where
  system_prompt : String
  thought : String
  domain : String
  filtered : Nat
  outputOpt : Option String
deriving DecidableEq

/-- `DOMAIN_EXAMPLES` from `src/examples/math_example.py`. -/
def DOMAIN_EXAMPLES : List DomainEx := [
  ⟨"You are a math tutor helping students.",
    "The derivative of x^2 is 2x.", "educational", 0, none⟩,
  ⟨"You are a financial advisor.",
    "The derivative exposure on this bond is concerning.", "financial", 0, none⟩,
  ⟨"You are a helpful assistant.",
    "To find the area, calculate 15 * 20 = 300 square feet.", "general", 0,
    some "To find the area, calculate 15 * 20 [=300] = 300 square feet."⟩]

/-! ## Cache lemmas -/

theorem lookupC_mem {c : Cache} {k : String} {v : Value}
    (h : lookupC c k = some v) : (k, v) ∈ c := by
  induction c with
  | nil => simp [lookupC] at h
  | cons p rest ih =>
    obtain ⟨k1, v1⟩ := p
    simp only [lookupC] at h
    split at h
    · next heq =>
      cases h
      exact heq ▸ List.mem_cons_self _ _
    · exact List.mem_cons_of_mem _ (ih h)

theorem mem_eraseC {c : Cache} {key : String} {p : String × Value}
    (h : p ∈ eraseC c key) : p ∈ c := by
  induction c with
  | nil => simp [eraseC] at h
  | cons q rest ih =>
    obtain ⟨k1, v1⟩ := q
    simp only [eraseC] at h
    split at h
    · exact List.mem_cons_of_mem _ (ih h)
    · rcases List.mem_cons.mp h with h1 | h2
      · exact h1 ▸ List.mem_cons_self _ _
      · exact List.mem_cons_of_mem _ (ih h2)

theorem wfcache_insert {c : Cache} {k : String} {v : Value} (cap : Nat)
    (hc : WFCache c) (hk : solveKey k = some v) :
    WFCache (insertLRU cap c k v) := by
  intro p hp
  have hp2 : p ∈ (k, v) :: eraseC c k := List.take_subset _ _ hp
  rcases List.mem_cons.mp hp2 with h1 | h2
  · subst h1; exact hk
  · exact hc p (mem_eraseC h2)

theorem getCached_fst {c : Cache} (cap : Nat) (k : String) (hc : WFCache c) :
    (getCached cap c k).1 = solveKey k := by
  unfold getCached
  cases h : lookupC c k with
  | some v =>
    simpa using (hc _ (lookupC_mem h)).symm
  | none =>
    cases h2 : solveKey k <;> simp [h2]

theorem getCached_wf {c : Cache} (cap : Nat) (k : String) (hc : WFCache c) :
    WFCache (getCached cap c k).2 := by
  unfold getCached
  cases h : lookupC c k with
  | some v =>
    simpa using wfcache_insert cap hc (hc _ (lookupC_mem h))
  | none =>
    cases h2 : solveKey k with
    | some v => simpa [h2] using wfcache_insert cap hc h2
    | none => simpa [h2] using hc

theorem resolveGo_spec (cap : Nat) (t : List Char) :
    ∀ (ms : List MatchSpan) (c : Cache), WFCache c →
      (resolveGo cap c t ms).1 = resolvePure t ms
      ∧ WFCache (resolveGo cap c t ms).2 := by
  intro ms
  induction ms with
  | nil => intro c hc; exact ⟨rfl, hc⟩
  | cons m ms ih =>
    intro c hc
    have h1 := getCached_fst cap (normKey (rawOf t m)) hc
    have h2 := getCached_wf cap (normKey (rawOf t m)) hc
    obtain ⟨ha, hb⟩ := ih _ h2
    refine ⟨?_, by simpa [resolveGo] using hb⟩
    simp only [resolveGo, resolvePure, List.map_cons]
    rw [h1, ha]
    simp [resolvePure]

theorem extractCachedWith_eq (supp : List String) (cap : Nat) {c : Cache}
    (text : String) (hc : WFCache c) :
    (extractCachedWith supp cap c text).1 = extractWith supp text
    ∧ WFCache (extractCachedWith supp cap c text).2 := by
  obtain ⟨h1, h2⟩ := resolveGo_spec cap text.data
    ((scanText text).filter (fun m => !(supp.contains m.category))) c hc
  constructor
  · simp only [extractCachedWith, extractWith]
    rw [h1]
  · simpa [extractCachedWith] using h2

theorem tryLocalCached_eq (cap : Nat) {c : Cache} (q : String)
    (hc : WFCache c) :
    (tryLocalCached cap c q).1 = tryLocalCompute q
    ∧ WFCache (tryLocalCached cap c q).2 := by
  unfold tryLocalCached tryLocalCompute
  cases hs : scanText q with
  | nil => exact ⟨rfl, hc⟩
  | cons m rest =>
    cases rest with
    | nil =>
      have h1 := getCached_fst cap (normKey (rawOf q.data m)) hc
      have h2 := getCached_wf cap (normKey (rawOf q.data m)) hc
      simp only []
      rw [← h1]
      cases hv : (getCached cap c (normKey (rawOf q.data m))).1 with
      | some v => exact ⟨rfl, h2⟩
      | none => exact ⟨rfl, h2⟩
    | cons m2 r2 => exact ⟨rfl, hc⟩

/-! ## The claims -/

/-- C1: every supported expression recorded in the example tables has an
arithmetically exact value.  The modelled engine computes with exact
integer/rational arithmetic (`qAdd`, `qMul`, `natGcd`, `perfectSqrt`,
`isPrimeB`, ...), so its agreement with every recorded
`DIRECT_SOLVE_EXAMPLES` result and with every `[=value]` annotation in
the `INJECTION_EXAMPLES` outputs certifies their exactness. -/
theorem injected_values_exact :
    (∀ e ∈ DIRECT_SOLVE_EXAMPLES,
      tryLocalCompute e.query = some ⟨e.result, e.method, qOfNat 1⟩)
    ∧ (∀ e ∈ INJECTION_EXAMPLES,
      (extractAndCompute e.input).augmented = e.output) := by
  constructor <;> decide

theorem injected_values_exact_witness :
    (⟨"17 + 28", .num ⟨45, 1⟩, "arithmetic"⟩ : DirectEx) ∈ DIRECT_SOLVE_EXAMPLES
    ∧ tryLocalCompute "17 + 28" = some ⟨.num ⟨45, 1⟩, "arithmetic", qOfNat 1⟩ :=
  ⟨by decide,
    injected_values_exact.1 ⟨"17 + 28", .num ⟨45, 1⟩, "arithmetic"⟩ (by decide)⟩

/-- C2 counterexample: deleting exactly the `[=value]` annotations (and
nothing else) from a recorded output does not reconstruct the input —
each annotation is preceded by an inserted space, which such a deletion
leaves behind (third conjunct shows the stray spaces). -/
theorem strip_bracket_only_fails :
    (⟨"Square Roots", "The hypotenuse is sqrt(9 + 16) = sqrt(25).",
      "The hypotenuse is sqrt(9 + 16 [=25]) = sqrt(25) [=5].", 2⟩ : InjEx)
      ∈ INJECTION_EXAMPLES
    ∧ stripAnn "The hypotenuse is sqrt(9 + 16 [=25]) = sqrt(25) [=5]."
        ≠ "The hypotenuse is sqrt(9 + 16) = sqrt(25)."
    ∧ stripAnn "The hypotenuse is sqrt(9 + 16 [=25]) = sqrt(25) [=5]."
        = "The hypotenuse is sqrt(9 + 16 ) = sqrt(25) ." := by
  decide

/-- C2 as amended: for every entry of `INJECTION_EXAMPLES` the output is
at least as long as the input, and deleting every inserted annotation
together with the single space preceding it reconstructs the input
exactly. -/
theorem strip_with_space_reconstructs :
    ∀ e ∈ INJECTION_EXAMPLES,
      e.input.length ≤ e.output.length ∧ stripAnnSp e.output = e.input := by
  decide

theorem strip_with_space_reconstructs_witness :
    (⟨"Square Roots", "The hypotenuse is sqrt(9 + 16) = sqrt(25).",
      "The hypotenuse is sqrt(9 + 16 [=25]) = sqrt(25) [=5].", 2⟩ : InjEx)
      ∈ INJECTION_EXAMPLES
    ∧ ("The hypotenuse is sqrt(9 + 16) = sqrt(25).").length
        ≤ ("The hypotenuse is sqrt(9 + 16 [=25]) = sqrt(25) [=5].").length
    ∧ stripAnnSp "The hypotenuse is sqrt(9 + 16 [=25]) = sqrt(25) [=5]."
        = "The hypotenuse is sqrt(9 + 16) = sqrt(25)." :=
  ⟨by decide,
    (strip_with_space_reconstructs
      ⟨"Square Roots", "The hypotenuse is sqrt(9 + 16) = sqrt(25).",
        "The hypotenuse is sqrt(9 + 16 [=25]) = sqrt(25) [=5].", 2⟩
      (by decide)).1,
    (strip_with_space_reconstructs
      ⟨"Square Roots", "The hypotenuse is sqrt(9 + 16) = sqrt(25).",
        "The hypotenuse is sqrt(9 + 16 [=25]) = sqrt(25) [=5].", 2⟩
      (by decide)).2⟩

/-- C3 counterexample: in the recorded square-root example the matched
substring `9 + 16` ends at offset 29 of the input (immediately before
`)`), and `sqrt(25)` ends at offset 41; inserting the annotations there
with no whitespace does not give the recorded output, while inserting
them with one space does — so whitespace IS introduced between the
matched text and the annotation. -/
theorem annotation_preceded_by_space :
    (⟨"Square Roots", "The hypotenuse is sqrt(9 + 16) = sqrt(25).",
      "The hypotenuse is sqrt(9 + 16 [=25]) = sqrt(25) [=5].", 2⟩ : InjEx)
      ∈ INJECTION_EXAMPLES
    ∧ "The hypotenuse is sqrt(9 + 16 [=25]) = sqrt(25) [=5]."
        ≠ injectAt "The hypotenuse is sqrt(9 + 16) = sqrt(25)."
            [(29, "25"), (41, "5")] ""
    ∧ "The hypotenuse is sqrt(9 + 16 [=25]) = sqrt(25) [=5]."
        = injectAt "The hypotenuse is sqrt(9 + 16) = sqrt(25)."
            [(29, "25"), (41, "5")] " " := by
  decide

/-- C3 as amended: in every augmented output each annotation has the
exact form `[=value]` and is inserted immediately after the matched
literal substring, separated from it by exactly one space character:
every recorded output equals the input with ` [=value]` inserted at
each match's end offset. -/
theorem annotation_insertion_one_space :
    ∀ e ∈ INJECTION_EXAMPLES,
      e.output = injectAt e.input (annotSites e.input) " " := by
  decide

theorem annotation_insertion_one_space_witness :
    (⟨"Arithmetic", "Let me calculate 17 + 28 to find the total.",
      "Let me calculate 17 + 28 [=45] to find the total.", 1⟩ : InjEx)
      ∈ INJECTION_EXAMPLES
    ∧ "Let me calculate 17 + 28 [=45] to find the total."
        = injectAt "Let me calculate 17 + 28 to find the total."
            (annotSites "Let me calculate 17 + 28 to find the total.") " " :=
  ⟨by decide,
    annotation_insertion_one_space
      ⟨"Arithmetic", "Let me calculate 17 + 28 to find the total.",
        "Let me calculate 17 + 28 [=45] to find the total.", 1⟩
      (by decide)⟩

/-- C4: augmenting a text containing `sqrt(9 + 16) = sqrt(25).` yields
exactly two computations — the inner arithmetic `9 + 16 = 25` and the
outer `sqrt(25) = 5` — each solved from its own literal text (the
outer value is what solving the literal `sqrt(25)` alone gives, and
`sqrt(9 + 16)` alone yields no square-root computation at all, so no
result is threaded between matches); the example text becomes the
recorded output with its prefix preserved verbatim. -/
theorem nesting_independence :
    extractAndCompute "The hypotenuse is sqrt(9 + 16) = sqrt(25)."
      = ⟨"The hypotenuse is sqrt(9 + 16 [=25]) = sqrt(25) [=5].",
         [(.num ⟨25, 1⟩, "arithmetic"), (.num ⟨5, 1⟩, "square_root")]⟩
    ∧ (extractAndCompute "sqrt(9 + 16) = sqrt(25).").augmented
        = "sqrt(9 + 16 [=25]) = sqrt(25) [=5]."
    ∧ (extractAndCompute "sqrt(9 + 16) = sqrt(25).").computations
        = [(.num ⟨25, 1⟩, "arithmetic"), (.num ⟨5, 1⟩, "square_root")]
    ∧ solveKey "sqrt(25)" = some (.num ⟨5, 1⟩)
    ∧ (extractAndCompute "sqrt(9 + 16)").computations
        = [(.num ⟨25, 1⟩, "arithmetic")] := by
  decide

/-- C5: `tryLocalCompute` solves the single wholly-computable input
`17 + 28` with result 45, method `arithmetic` and confidence 1, and
does not solve the indirect-reference sentence about Alice and Bob. -/
theorem direct_solve_boundary :
    tryLocalCompute "17 + 28" = some ⟨.num ⟨45, 1⟩, "arithmetic", qOfNat 1⟩
    ∧ tryLocalCompute
        "If Alice has twice as many apples as Bob, and Bob has 7 apples."
      = none := by
  decide

/-- C6: a context classified as `financial` suppresses the matches of a
category in that domain's suppression set, leaving the computations for
that text empty, while the very same literal text with no context
(default `general` domain, empty suppression set) is matched and
solved; the three `DOMAIN_EXAMPLES` classifications and the recorded
general-domain output are reproduced. -/
theorem domain_suppression :
    (∀ e ∈ DOMAIN_EXAMPLES, classifyDomain (some e.system_prompt) = e.domain)
    ∧ (contextAwareCompute (some "You are a helpful assistant.")
        "To find the area, calculate 15 * 20 = 300 square feet.").augmented
      = "To find the area, calculate 15 * 20 [=300] = 300 square feet."
    ∧ classifyDomain none = "general"
    ∧ suppressedOf "general" = []
    ∧ "word_product" ∈ suppressedOf "financial"
    ∧ (contextAwareCompute (some "You are a financial advisor.")
        "The product of 6 and 7 is the area.").computations = []
    ∧ (contextAwareCompute (some "You are a financial advisor.")
        "The product of 6 and 7 is the area.").augmented
      = "The product of 6 and 7 is the area."
    ∧ (extractAndCompute "The product of 6 and 7 is the area.").computations
      = [(.num ⟨42, 1⟩, "word_product")] := by
  refine ⟨by decide, ?_, by decide, by decide, by decide, by decide, by decide,
    by decide⟩
  decide

theorem domain_suppression_witness :
    (⟨"You are a financial advisor.",
      "The derivative exposure on this bond is concerning.",
      "financial", 0, none⟩ : DomainEx) ∈ DOMAIN_EXAMPLES
    ∧ classifyDomain (some "You are a financial advisor.") = "financial" :=
  ⟨by decide,
    domain_suppression.1
      ⟨"You are a financial advisor.",
        "The derivative exposure on this bond is concerning.",
        "financial", 0, none⟩
      (by decide)⟩

/-- C7: the word-division phrasings divide by the integer named by the
ordinal/fraction word: "half of 100" gives 50 via `word_half`,
"one third of 90" gives 30 and "a quarter of 80" gives 20 via
`word_fraction`, exactly as recorded in `DIRECT_SOLVE_EXAMPLES`. -/
theorem word_division_phrasings :
    (⟨"half of 100", .num ⟨50, 1⟩, "word_half"⟩ : DirectEx)
      ∈ DIRECT_SOLVE_EXAMPLES
    ∧ (⟨"one third of 90", .num ⟨30, 1⟩, "word_fraction"⟩ : DirectEx)
      ∈ DIRECT_SOLVE_EXAMPLES
    ∧ (⟨"a quarter of 80", .num ⟨20, 1⟩, "word_fraction"⟩ : DirectEx)
      ∈ DIRECT_SOLVE_EXAMPLES
    ∧ tryLocalCompute "half of 100" = some ⟨.num ⟨50, 1⟩, "word_half", qOfNat 1⟩
    ∧ tryLocalCompute "one third of 90"
      = some ⟨.num ⟨30, 1⟩, "word_fraction", qOfNat 1⟩
    ∧ tryLocalCompute "a quarter of 80"
      = some ⟨.num ⟨20, 1⟩, "word_fraction", qOfNat 1⟩ := by
  decide

/-- C8: the cache is transparent — starting from any well-formed cache
state, the context-aware augmentation call and the direct-solve call
return exactly the cacheless result, on the first call and again on the
repeat call with the updated cache (so repeated calls with a fixed
context return identical output, cache hit or fresh solve). -/
theorem cache_transparency (ctx : Option String) (text : String) (cap : Nat)
    (c : Cache) (hc : WFCache c) :
    (contextAwareCached ctx cap c text).1 = contextAwareCompute ctx text
    ∧ (contextAwareCached ctx cap (contextAwareCached ctx cap c text).2 text).1
      = contextAwareCompute ctx text
    ∧ (tryLocalCached cap c text).1 = tryLocalCompute text
    ∧ (tryLocalCached cap (tryLocalCached cap c text).2 text).1
      = tryLocalCompute text := by
  obtain ⟨h1, hw1⟩ := extractCachedWith_eq
    (suppressedOf (classifyDomain ctx)) cap text hc
  obtain ⟨h2, _⟩ := extractCachedWith_eq
    (suppressedOf (classifyDomain ctx)) cap text hw1
  obtain ⟨h3, hw3⟩ := tryLocalCached_eq cap text hc
  obtain ⟨h4, _⟩ := tryLocalCached_eq cap text hw3
  exact ⟨h1, h2, h3, h4⟩

theorem cache_transparency_witness :
    WFCache ([] : Cache)
    ∧ ((contextAwareCached none 1024 [] "17 + 28").1
        = contextAwareCompute none "17 + 28"
      ∧ (contextAwareCached none 1024
          (contextAwareCached none 1024 [] "17 + 28").2 "17 + 28").1
        = contextAwareCompute none "17 + 28"
      ∧ (tryLocalCached 1024 [] "17 + 28").1 = tryLocalCompute "17 + 28"
      ∧ (tryLocalCached 1024
          (tryLocalCached 1024 [] "17 + 28").2 "17 + 28").1
        = tryLocalCompute "17 + 28") :=
  ⟨fun p hp => absurd hp (List.not_mem_nil p),
    cache_transparency none "17 + 28" 1024 []
      (fun p hp => absurd hp (List.not_mem_nil p))⟩

/-- C9: the engine degrades to a no-op instead of failing: on any text
in which the classifier finds nothing, the augmentation returns the
text unchanged with no computations; the indirect-reference example
returns unchanged; a division by zero is a silently dropped
`DomainError` (text unchanged, nothing computed, not solved). -/
theorem degrades_to_noop :
    (∀ text : String, scanText text = [] → extractAndCompute text = ⟨text, []⟩)
    ∧ extractAndCompute
        "If Alice has twice as many apples as Bob, and Bob has 7 apples."
      = ⟨"If Alice has twice as many apples as Bob, and Bob has 7 apples.", []⟩
    ∧ extractAndCompute "Please compute 10 / 0 for me."
      = ⟨"Please compute 10 / 0 for me.", []⟩
    ∧ tryLocalCompute "10 / 0" = none := by
  refine ⟨?_, by decide, by decide, by decide⟩
  intro text h
  obtain ⟨d⟩ := text
  simp [extractAndCompute, extractWith, h, resolvePure, computationsOf, injGo]

theorem degrades_to_noop_witness :
    scanText "No expressions here at all." = []
    ∧ extractAndCompute "No expressions here at all."
      = ⟨"No expressions here at all.", []⟩ :=
  ⟨by decide, degrades_to_noop.1 "No expressions here at all." (by decide)⟩

/-- C10: for every entry of `INJECTION_EXAMPLES` the number of
occurrences of the annotation marker `[=` in the output equals the
entry's recorded computations count. -/
theorem annotation_count_matches :
    ∀ e ∈ INJECTION_EXAMPLES, countOcc e.output "[=" = e.computations := by
  decide

theorem annotation_count_matches_witness :
    (⟨"Arithmetic", "Let me calculate 17 + 28 to find the total.",
      "Let me calculate 17 + 28 [=45] to find the total.", 1⟩ : InjEx)
      ∈ INJECTION_EXAMPLES
    ∧ countOcc "Let me calculate 17 + 28 [=45] to find the total." "[=" = 1 :=
  ⟨by decide,
    annotation_count_matches
      ⟨"Arithmetic", "Let me calculate 17 + 28 to find the total.",
        "Let me calculate 17 + 28 [=45] to find the total.", 1⟩
      (by decide)⟩



